import Mathlib

/-!
Verification of `tools/process_assets.py` (MemoryGame asset pipeline).

The script is embedded shallowly: an in-memory decoded RGB raster becomes a
list of pixel rows, and each Pillow call the script makes is translated to a
pure Lean function on that representation.  File-system effects (reading the
manifest, probing source files, writing PNGs) are modelled by explicit inputs
and outputs of the `mainRun` function.
-/

namespace ProcessAssets

/-- One RGB pixel (channel values; their range is irrelevant to the claims). -/
abbrev Rgb := Nat × Nat × Nat

/-- A decoded raster: a list of pixel rows (row-major, top to bottom).
Models Pillow's in-memory image after `convert("RGB")`. -/
structure Img where
  data : List (List Rgb)
deriving DecidableEq

/-- Image height, as Pillow reports it. -/
def Img.height (i : Img) : Nat := i.data.length

/-- Image width: length of the first row (0 for an empty image). -/
def Img.width (i : Img) : Nat := (i.data.getD 0 []).length

/-- Pixel access; out-of-range coordinates give an arbitrary default,
which well-formed call sites never hit. -/
def getPix (i : Img) (x y : Nat) : Rgb := (i.data.getD y []).getD x (0, 0, 0)

/-- A raster is well-formed when every row has the image's width
(Pillow rasters are always rectangular). -/
def Wf (i : Img) : Prop := ∀ row ∈ i.data, row.length = i.width

instance (i : Img) : Decidable (Wf i) := by unfold Wf; infer_instance

/-- Build a `w × h` raster from a pixel generator. -/
def mkImg (w h : Nat) (f : Nat → Nat → Rgb) : Img :=
  ⟨(List.range h).map fun y => (List.range w).map fun x => f x y⟩

/-- `image.crop((l, t, r, b))`: the sub-rectangle with those pixel bounds.
(Pillow pads when the box leaves the image; the script always stays inside,
so the model clips instead, which agrees on every in-bounds box.) -/
def crop (i : Img) (l t r b : Nat) : Img :=
  ⟨((i.data.drop t).take (b - t)).map fun row => (row.drop l).take (r - l)⟩

/-- Python `round(h * 0.75)` for a nonnegative integer `h`: `h * 0.75` is an
exact binary float (for any realistic `h`), so this is round-half-to-even of
the rational `3h/4`. -/
def pyRound34 (h : Nat) : Nat :=
  if 3 * h % 4 = 2 then (if 3 * h / 4 % 2 = 0 then 3 * h / 4 else 3 * h / 4 + 1)
  else if 3 * h % 4 = 3 then 3 * h / 4 + 1
  else 3 * h / 4

/-- `center_crop_to_ratio(image, target_ratio=3/4)` from the script.  The float
comparison `width / height > 0.75` is exact as the rational test `4w > 3h`,
and Python `int(...)` truncates, i.e. takes the floor of the nonnegative
quotients `h * 0.75` and `w / 0.75 = 4w/3` (both floor-exact in floats for
any realistic size). -/
def center_crop_to_ratio (image : Img) : Img :=
  let width := image.width
  let height := image.height
  if 4 * width > 3 * height then
    let new_width := 3 * height / 4
    let x0 := (width - new_width) / 2
    crop image x0 0 (x0 + new_width) height
  else
    let new_height := 4 * width / 3
    let y0 := (height - new_height) / 2
    crop image 0 y0 width (y0 + new_height)

/-- `image.resize((nw, nh), Image.Resampling.NEAREST)`: Pillow implements
NEAREST resize as the affine map with scale `w/nw`, sampling the source at
`floor((x + 0.5) * w / nw)` — rationally, `(2x+1)*w / (2*nw)`. -/
def resizeNearest (image : Img) (nw nh : Nat) : Img :=
  mkImg nw nh fun x y =>
    getPix image ((2 * x + 1) * image.width / (2 * nw))
                 ((2 * y + 1) * image.height / (2 * nh))

/-- Squared Euclidean distance between two RGB colors. -/
def dist2 (a b : Rgb) : Int :=
  ((a.1 : Int) - b.1) ^ 2 + ((a.2.1 : Int) - b.2.1) ^ 2 + ((a.2.2 : Int) - b.2.2) ^ 2

/-- Closest palette entry to `p` (first wins on ties); `p` itself if the
palette is empty. -/
def nearestColor (pal : List Rgb) (p : Rgb) : Rgb :=
  match pal with
  | [] => p
  | c :: cs => cs.foldl (fun best c2 => if dist2 c2 p < dist2 best p then c2 else best) c

/-- Modelled from the spec: `image.quantize(colors=..., method=MEDIANCUT)`
followed by `.convert("RGB")` is Pillow library code, not part of this
repository.  Per the spec it reduces the raster to at most `colors` colors by
a median-cut palette selection and returns a same-size 3-channel raster, the
exact palette choice being left to the library ("acceptable point of
divergence").  The model selects the first `colors` distinct colors in raster
order as the palette and maps every pixel to its nearest palette entry. -/
def quantizeMedianCut (image : Img) (colors : Nat) : Img :=
  let palette := image.data.flatten.dedup.take colors
  ⟨image.data.map fun row => row.map fun p => nearestColor palette p⟩

/-- `process_one` from the script, from the decoded raster onwards: the
`Image.open`/`convert("RGB")` prelude hands the pipeline a decoded RGB raster
(the `source` argument here), and the final `image.save(...)` writes the
returned raster out verbatim. -/
def process_one (source : Img) (final_width final_height pixel_width pixel_height : Nat)
    (quantize : Int) : Img :=
  let image := center_crop_to_ratio source
  let image := resizeNearest image pixel_width pixel_height
  let image := quantizeMedianCut image (max 2 quantize).toNat
  resizeNearest image final_width final_height

/-- The distinct colors occurring in a raster. -/
def imageColors (i : Img) : List Rgb := i.data.flatten.dedup

/-- Number of distinct colors in a raster. -/
def colorCount (i : Img) : Nat := (imageColors i).length

/-- A parsed JSON value (`json.load` output).  Numbers are modelled as
integers; the manifest claims never involve fractional numbers. -/
inductive Json where
  | null
  | bool (b : Bool)
  | num (n : Int)
  | str (s : String)
  | arr (elems : List Json)
  | obj (fields : List (String × Json))

/-- Python `repr` of a JSON-decoded value (lists/dicts print with brackets,
`None`/`True`/`False` spelled the Python way). -/
def pyRepr : Json → String
  | .null => "None"
  | .bool true => "True"
  | .bool false => "False"
  | .num n => toString n
  | .str s => "\x27" ++ s ++ "\x27"
  | .arr elems => "[" ++ ", ".intercalate (elems.attach.map fun e => pyRepr e.1) ++ "]"
  | .obj fields =>
      "\x7b" ++
        ", ".intercalate (fields.attach.map fun kv =>
          "\x27" ++ kv.1.1 ++ "\x27: " ++ pyRepr kv.1.2) ++ "\x7d"
decreasing_by
  · have := List.sizeOf_lt_of_mem e.2
    simp at this ⊢
    omega
  · rcases kv with ⟨⟨k, v⟩, hm⟩
    have := List.sizeOf_lt_of_mem hm
    simp at this ⊢
    omega

/-- Python `str` of a JSON-decoded value: the string itself for strings,
`repr` rendering otherwise. -/
def pyStr (v : Json) : String :=
  match v with
  | .str s => s
  | other => pyRepr other

/-- Python `str.strip()`: drop leading and trailing whitespace.  (Defined on
the character list so that it evaluates by reduction.) -/
def pyStrip (s : String) : String :=
  ⟨((s.data.dropWhile Char.isWhitespace).reverse.dropWhile Char.isWhitespace).reverse⟩

/-- `dict.get(key, default)` on a JSON object's fields. -/
def fieldOr (fields : List (String × Json)) (key : String) (dflt : Json) : Json :=
  (fields.lookup key).getD dflt

/-- `str(card.get("slug", "")).strip()` (line 147 of the script). -/
def entrySlug (fields : List (String × Json)) : String :=
  pyStrip (pyStr (fieldOr fields "slug" (.str "")))

/-- `str(card.get("name", slug)).strip()` (line 148 of the script). -/
def entryName (fields : List (String × Json)) (slug : String) : String :=
  pyStrip (pyStr (fieldOr fields "name" (.str slug)))

/-- `load_cards` from the script, after `json.load` has produced a value:
`data.get("cards", [])` defaults a missing key to the empty list, raises
`AttributeError` on a non-dict top level (caught by `main`), and the explicit
`isinstance` check raises `ValueError` on a non-list value. -/
def load_cards (data : Json) : Except String (List Json) :=
  match data with
  | .obj fields =>
    match (fields.lookup "cards").getD (.arr []) with
    | .arr cards => .ok cards
    | _ => .error "cards.json format is invalid: expected key \x27cards\x27 as list."
  | _ => .error "AttributeError"

/-- The filesystem and image-codec environment `main` runs against:
`files` is the content of `assets/source` (filename to decoded raster), and
`ioFail` marks source files whose decode/encode raises `OSError`. -/
structure Env where
  files : List (String × Img)
  ioFail : String → Bool

/-- Extension probe order of `find_source_image`. -/
def sourceExts : List String := [".png", ".jpg", ".jpeg", ".webp"]

/-- `find_source_image` from the script: first existing `<slug><ext>` in
probe order, together with its decoded raster. -/
def find_source_image (env : Env) (slug : String) : Option (String × Img) :=
  sourceExts.findSome? fun ext =>
    (env.files.lookup (slug ++ ext)).map fun img => (slug ++ ext, img)

/-- The four CLI parameters of the script. -/
structure Args where
  height : Int
  pixelHeight : Int
  quantize : Int
  contactSheet : Bool

/-- `final_height = args.height` (line 138; nonnegative once the `> 0` check
passed). -/
def finalHeightOf (args : Args) : Nat := args.height.toNat

/-- `final_width = max(1, int(round(final_height * (3.0 / 4.0))))` (line 139). -/
def finalWidthOf (args : Args) : Nat := max 1 (pyRound34 (finalHeightOf args))

/-- `pixel_height = args.pixel_height` (line 140). -/
def pixelHeightOf (args : Args) : Nat := args.pixelHeight.toNat

/-- `pixel_width = max(1, int(round(pixel_height * (3.0 / 4.0))))` (line 141). -/
def pixelWidthOf (args : Args) : Nat := max 1 (pyRound34 (pixelHeightOf args))

/-- Outcome of the per-card loop of `main`: written outputs (destination path
and raster, in manifest order), failure count, stderr and stdout lines. -/
structure LoopResult where
  outs : List (String × Img)
  failures : Nat
  errLog : List String
  okLog : List String
deriving DecidableEq

/-- The per-card loop of `main` (lines 146-175).  A non-dict entry makes
`card.get` raise an uncaught `AttributeError`, modelled as `.error ()`. -/
def runCards (env : Env) (fw fh pw ph : Nat) (q : Int) : List Json → Except Unit LoopResult
  | [] => .ok ⟨[], 0, [], []⟩
  | card :: rest =>
    match card with
    | .obj fields =>
      let slug := entrySlug fields
      let name := entryName fields slug
      match runCards env fw fh pw ph q rest with
      | .error e => .error e
      | .ok r =>
        if slug = "" then
          .ok ⟨r.outs, r.failures + 1,
               ("Skipping malformed manifest entry: " ++ pyRepr card) :: r.errLog, r.okLog⟩
        else
          match find_source_image env slug with
          | none =>
            .ok ⟨r.outs, r.failures + 1,
                 ("Missing source image for " ++ slug ++ " in assets/source") :: r.errLog,
                 r.okLog⟩
          | some (srcPath, img) =>
            if env.ioFail srcPath then
              .ok ⟨r.outs, r.failures + 1, ("Failed to process " ++ slug) :: r.errLog, r.okLog⟩
            else
              .ok ⟨("assets/processed/" ++ slug ++ ".png", process_one img fw fh pw ph q) :: r.outs,
                   r.failures, r.errLog,
                   ("Processed " ++ name ++ " -> assets/processed/" ++ slug ++ ".png") :: r.okLog⟩
    | _ => .error ()

/-- Fixed grid width of the contact sheet (`columns = 4`). -/
def sheetColumns : Nat := 4

/-- Fixed gutter of the contact sheet (`margin = 12`). -/
def sheetMargin : Nat := 12

/-- X coordinate of tile `i`'s top-left corner on the sheet (line 117). -/
def slotX (tw i : Nat) : Nat := sheetMargin + (i % sheetColumns) * (tw + sheetMargin)

/-- Y coordinate of tile `i`'s top-left corner on the sheet (line 118). -/
def slotY (th i : Nat) : Nat := sheetMargin + (i / sheetColumns) * (th + sheetMargin)

/-- `sheet.paste(tile, (x0, y0))`: overwrite the rectangle of `tile`'s size at
that offset, clipped to the sheet. -/
def paste (base tile : Img) (x0 y0 : Nat) : Img :=
  mkImg base.width base.height fun x y =>
    if x0 ≤ x ∧ x < x0 + tile.width ∧ y0 ≤ y ∧ y < y0 + tile.height then
      getPix tile (x - x0) (y - y0)
    else getPix base x y

/-- `Image.new("RGB", (w, h), color)`. -/
def newRGB (w h : Nat) (c : Rgb) : Img := mkImg w h fun _ _ => c

/-- The `for index, output in enumerate(outputs)` paste loop of
`create_contact_sheet`. -/
def pasteTiles (tw th : Nat) : Img → Nat → List Img → Img
  | sheet, _, [] => sheet
  | sheet, index, tile :: rest =>
      pasteTiles tw th (paste sheet tile (slotX tw index) (slotY th index)) (index + 1) rest

/-- `create_contact_sheet` from the script.  The Python function re-opens the
written PNGs and writes the sheet to disk; the model takes the written rasters
directly and returns the sheet (`none` = early return, no file written). -/
def create_contact_sheet (outputs : List Img) (tile_width tile_height : Nat) : Option Img :=
  if outputs.isEmpty then none
  else
    let rows := (outputs.length + sheetColumns - 1) / sheetColumns
    some (pasteTiles tile_width tile_height
      (newRGB (sheetColumns * tile_width + (sheetColumns + 1) * sheetMargin)
              (rows * tile_height + (rows + 1) * sheetMargin)
              (20, 20, 26))
      0 outputs)

/-- Result of a whole run of `main`: what it wrote, logged and returned. -/
structure RunResult where
  processed : List (String × Img)
  failures : Nat
  errLog : List String
  okLog : List String
  sheet : Option Img
  exitCode : Nat
deriving DecidableEq

/-- `main` from the script, over a parsed manifest value.  `.error ()` is the
uncaught-exception path (non-dict manifest entry); every handled path returns
`.ok` with the exit code `main` returns. -/
def mainRun (env : Env) (manifest : Json) (args : Args) : Except Unit RunResult :=
  match load_cards manifest with
  | .error msg =>
    .ok ⟨[], 0, ["Failed to load cards manifest: " ++ msg], [], none, 1⟩
  | .ok cards =>
    if args.pixelHeight ≤ 0 ∨ args.height ≤ 0 then
      .ok ⟨[], 0, ["--height and --pixel-height must be > 0"], [], none, 1⟩
    else
      match runCards env (finalWidthOf args) (finalHeightOf args)
          (pixelWidthOf args) (pixelHeightOf args) args.quantize cards with
      | .error e => .error e
      | .ok r =>
        let sheet :=
          if args.contactSheet then
            create_contact_sheet (r.outs.map Prod.snd) (finalWidthOf args) (finalHeightOf args)
          else none
        let okLog :=
          if args.contactSheet then
            r.okLog ++ ["Generated contact sheet -> assets/processed/contact_sheet.png"]
          else r.okLog
        .ok ⟨r.outs, r.failures, r.errLog, okLog, sheet, if r.failures ≠ 0 then 1 else 0⟩

/-- `{"cards": [...]}`: a manifest whose `cards` key holds the given list. -/
def mkManifest (cards : List Json) : Json := .obj [("cards", .arr cards)]

/-- Is this JSON value an object (a Python dict)? -/
def Json.isObj : Json → Bool
  | .obj _ => true
  | _ => false

/-- The slug the loop computes for an entry (empty for non-objects). -/
def slugStr : Json → String
  | .obj fields => entrySlug fields
  | _ => ""

/-- A manifest entry the loop processes successfully: an object with a
non-blank slug whose source image exists and decodes/encodes cleanly. -/
def goodCard (env : Env) (c : Json) : Bool :=
  match c with
  | .obj fields =>
    if entrySlug fields = "" then false
    else
      match find_source_image env (entrySlug fields) with
      | some (p, _) => !env.ioFail p
      | none => false
  | _ => false

/-- A manifest entry with a non-blank slug but no source image under any
probed extension. -/
def missingCard (env : Env) (c : Json) : Bool :=
  match c with
  | .obj fields =>
    if entrySlug fields = "" then false
    else (find_source_image env (entrySlug fields)).isNone
  | _ => false

/-- A manifest entry whose computed slug is blank (missing, or whitespace
after stripping). -/
def blankCard : Json → Bool
  | .obj fields => entrySlug fields == ""
  | _ => false

instance {ε α : Type} [DecidableEq ε] [DecidableEq α] : DecidableEq (Except ε α) := fun x y =>
  match x, y with
  | .ok a, .ok b =>
    if h : a = b then .isTrue (by rw [h]) else .isFalse (fun he => h (Except.ok.inj he))
  | .error a, .error b =>
    if h : a = b then .isTrue (by rw [h]) else .isFalse (fun he => h (Except.error.inj he))
  | .ok _, .error _ => .isFalse (fun he => Except.noConfusion he)
  | .error _, .ok _ => .isFalse (fun he => Except.noConfusion he)

/-- A 2×2 sample source raster for concrete runs. -/
def sampleSrc : Img := ⟨[[(1, 2, 3), (4, 5, 6)], [(7, 8, 9), (10, 11, 12)]]⟩

/-- A source directory holding one image for slug `luke`, with no I/O faults. -/
def sampleEnv : Env := ⟨[("luke.png", sampleSrc)], fun _ => false⟩

/-- A one-card manifest naming slug `luke`. -/
def sampleManifest : Json :=
  mkManifest [Json.obj [("slug", Json.str "luke"), ("name", Json.str "Luke")]]

/-- Small valid CLI parameters: height 4, pixel height 2, quantize 28. -/
def sampleArgs : Args := ⟨4, 2, 28, false⟩

/-- The sample CLI parameters with the contact-sheet flag set. -/
def sampleArgsCS : Args := ⟨4, 2, 28, true⟩

/-- Manifest entry with slug `a`. -/
def cardA : Json := Json.obj [("slug", Json.str "a")]

/-- Manifest entry with slug `b`. -/
def cardB : Json := Json.obj [("slug", Json.str "b")]

/-- Manifest entry with slug `c` (no source image in `envAB`). -/
def cardC : Json := Json.obj [("slug", Json.str "c")]

/-- Manifest entry with no slug field at all. -/
def cardBlank : Json := Json.obj []

/-- A source directory holding images for slugs `a` and `b` only. -/
def envAB : Env := ⟨[("a.png", sampleSrc), ("b.png", sampleSrc)], fun _ => false⟩

/-- The rectangle occupied by tile `i` on the contact sheet. -/
def inSlot (tw th i x y : Nat) : Prop :=
  slotX tw i ≤ x ∧ x < slotX tw i + tw ∧ slotY th i ≤ y ∧ y < slotY th i + th

/-- A 1×1 sample tile. -/
def tileA : Img := ⟨[[(1, 2, 3)]]⟩

/-- Another 1×1 sample tile. -/
def tileB : Img := ⟨[[(4, 5, 6)]]⟩

/-- Fallback run result used to name a run's outcome. -/
def dfltRun : RunResult := ⟨[], 0, [], [], none, 0⟩

/-- The `RunResult` of a run known to end in `.ok`. -/
def mainOut (env : Env) (manifest : Json) (args : Args) : RunResult :=
  ((mainRun env manifest args).toOption).getD dfltRun

section ImgLemmas

theorem height_mkImg (w h : Nat) (f : Nat → Nat → Rgb) : (mkImg w h f).height = h := by
  simp [mkImg, Img.height]

theorem width_mkImg (w h : Nat) (f : Nat → Nat → Rgb) (hh : 0 < h) :
    (mkImg w h f).width = w := by
  unfold mkImg Img.width
  rw [List.getD_eq_getElem?_getD, List.getElem?_map, List.getElem?_range hh]
  simp

theorem getPix_mkImg (w h : Nat) (f : Nat → Nat → Rgb) (x y : Nat)
    (hx : x < w) (hy : y < h) : getPix (mkImg w h f) x y = f x y := by
  simp [mkImg, getPix, List.getD_eq_getElem?_getD, List.getElem?_map,
    List.getElem?_range hy, List.getElem?_range hx]

theorem wf_mkImg (w h : Nat) (f : Nat → Nat → Rgb) : Wf (mkImg w h f) := by
  intro row hrow
  simp only [mkImg, List.mem_map] at hrow
  obtain ⟨y, hy, rfl⟩ := hrow
  rcases Nat.eq_zero_or_pos h with h0 | hpos
  · simp [h0, List.range_zero] at hy
  · simp [width_mkImg w h f hpos]

theorem width_of_data_nil (i : Img) (h : i.data = []) : i.width = 0 := by
  simp [Img.width, h]

theorem height_crop (i : Img) (l t r b : Nat) (hb : b ≤ i.height) (htb : t ≤ b) :
    (crop i l t r b).height = b - t := by
  unfold crop Img.height
  simp only [List.length_map, List.length_take, List.length_drop]
  unfold Img.height at hb
  omega

theorem getPix_crop (i : Img) (l t r b x y : Nat) (hx : x < r - l) (hy : y < b - t) :
    getPix (crop i l t r b) x y = getPix i (l + x) (t + y) := by
  simp only [crop, getPix, List.getD_eq_getElem?_getD, List.getElem?_map]
  rw [List.getElem?_take, if_pos hy, List.getElem?_drop]
  cases hrow : i.data[t + y]? with
  | none => simp [hrow]
  | some row =>
    simp only [hrow, Option.map_some', Option.getD_some]
    rw [List.getElem?_take, if_pos hx, List.getElem?_drop]

end ImgLemmas

section PipelineLemmas

theorem width_crop (i : Img) (l t r b : Nat) (hwf : Wf i) (htb : t < b) (hbh : b ≤ i.height)
    (hlr : l + (r - l) ≤ i.width) :
    (crop i l t r b).width = r - l := by
  unfold crop Img.width
  rw [List.getD_eq_getElem?_getD, List.getElem?_map]
  rw [List.getElem?_take, if_pos (by omega : 0 < b - t), List.getElem?_drop]
  cases hrow : i.data[t + 0]? with
  | none =>
    exfalso
    rw [List.getElem?_eq_none_iff] at hrow
    unfold Img.height at hbh
    omega
  | some row =>
    have hmem : row ∈ i.data := List.getElem?_mem hrow
    have hlen := hwf row hmem
    simp only [Option.map_some', Option.getD_some, List.length_take, List.length_drop]
    omega

theorem height_resize (i : Img) (nw nh : Nat) : (resizeNearest i nw nh).height = nh :=
  height_mkImg _ _ _

theorem width_resize (i : Img) (nw nh : Nat) (h : 0 < nh) :
    (resizeNearest i nw nh).width = nw :=
  width_mkImg _ _ _ h

theorem process_one_height (src : Img) (fw fh pw ph : Nat) (q : Int) :
    (process_one src fw fh pw ph q).height = fh :=
  height_resize _ _ _

theorem process_one_width (src : Img) (fw fh pw ph : Nat) (q : Int) (h : 0 < fh) :
    (process_one src fw fh pw ph q).width = fw :=
  width_resize _ _ _ h

theorem pyRound34_pos (n : Nat) (h : 0 < n) : 0 < pyRound34 n := by
  unfold pyRound34
  split_ifs <;> omega

end PipelineLemmas

section LoopLemmas

theorem runCards_nil (env : Env) (fw fh pw ph : Nat) (q : Int) :
    runCards env fw fh pw ph q [] = .ok ⟨[], 0, [], []⟩ := rfl

theorem runCards_cons_obj (env : Env) (fw fh pw ph : Nat) (q : Int)
    (fields : List (String × Json)) (rest : List Json) :
    runCards env fw fh pw ph q (Json.obj fields :: rest) =
      match runCards env fw fh pw ph q rest with
      | .error e => .error e
      | .ok r =>
        if entrySlug fields = "" then
          .ok ⟨r.outs, r.failures + 1,
               ("Skipping malformed manifest entry: " ++ pyRepr (Json.obj fields)) :: r.errLog,
               r.okLog⟩
        else
          match find_source_image env (entrySlug fields) with
          | none =>
            .ok ⟨r.outs, r.failures + 1,
                 ("Missing source image for " ++ entrySlug fields ++ " in assets/source")
                   :: r.errLog,
                 r.okLog⟩
          | some (srcPath, img) =>
            if env.ioFail srcPath then
              .ok ⟨r.outs, r.failures + 1,
                   ("Failed to process " ++ entrySlug fields) :: r.errLog, r.okLog⟩
            else
              .ok ⟨("assets/processed/" ++ entrySlug fields ++ ".png",
                      process_one img fw fh pw ph q) :: r.outs,
                   r.failures, r.errLog,
                   ("Processed " ++ entryName fields (entrySlug fields) ++
                      " -> assets/processed/" ++ entrySlug fields ++ ".png") :: r.okLog⟩ := rfl

theorem runCards_cons_nonobj (env : Env) (fw fh pw ph : Nat) (q : Int)
    (card : Json) (rest : List Json) (h : card.isObj = false) :
    runCards env fw fh pw ph q (card :: rest) = .error () := by
  cases card <;> first
    | rfl
    | exact absurd h (by simp [Json.isObj])

theorem runCards_cons_blank (env : Env) (fw fh pw ph : Nat) (q : Int)
    (fields : List (String × Json)) (rest : List Json) (r : LoopResult)
    (hs : entrySlug fields = "")
    (hr : runCards env fw fh pw ph q rest = .ok r) :
    runCards env fw fh pw ph q (Json.obj fields :: rest) =
      .ok ⟨r.outs, r.failures + 1,
           ("Skipping malformed manifest entry: " ++ pyRepr (Json.obj fields)) :: r.errLog,
           r.okLog⟩ := by
  rw [runCards_cons_obj, hr]
  simp [hs]

theorem runCards_cons_missing (env : Env) (fw fh pw ph : Nat) (q : Int)
    (fields : List (String × Json)) (rest : List Json) (r : LoopResult)
    (hs : entrySlug fields ≠ "")
    (hf : find_source_image env (entrySlug fields) = none)
    (hr : runCards env fw fh pw ph q rest = .ok r) :
    runCards env fw fh pw ph q (Json.obj fields :: rest) =
      .ok ⟨r.outs, r.failures + 1,
           ("Missing source image for " ++ entrySlug fields ++ " in assets/source") :: r.errLog,
           r.okLog⟩ := by
  rw [runCards_cons_obj, hr]
  simp [hs, hf]

theorem runCards_cons_good (env : Env) (fw fh pw ph : Nat) (q : Int)
    (fields : List (String × Json)) (rest : List Json) (r : LoopResult)
    (srcPath : String) (img : Img)
    (hs : entrySlug fields ≠ "")
    (hf : find_source_image env (entrySlug fields) = some (srcPath, img))
    (hio : env.ioFail srcPath = false)
    (hr : runCards env fw fh pw ph q rest = .ok r) :
    runCards env fw fh pw ph q (Json.obj fields :: rest) =
      .ok ⟨("assets/processed/" ++ entrySlug fields ++ ".png",
              process_one img fw fh pw ph q) :: r.outs,
           r.failures, r.errLog,
           ("Processed " ++ entryName fields (entrySlug fields) ++
              " -> assets/processed/" ++ entrySlug fields ++ ".png") :: r.okLog⟩ := by
  rw [runCards_cons_obj, hr]
  simp [hs, hf, hio]

end LoopLemmas

section ClaimC7

/-- **C7.** For every run where the requested final height ≤ 0 or the requested
pixel height ≤ 0, the whole run fails with exit code 1 before any card is
processed: no processed card output and no contact sheet is written. -/
theorem C7_invalid_heights_fail (env : Env) (manifest : Json) (args : Args)
    (h : args.height ≤ 0 ∨ args.pixelHeight ≤ 0) :
    ∃ r, mainRun env manifest args = .ok r ∧ r.exitCode = 1 ∧
      r.processed = [] ∧ r.sheet = none := by
  cases hl : load_cards manifest with
  | error msg =>
    exact ⟨⟨[], 0, ["Failed to load cards manifest: " ++ msg], [], none, 1⟩,
      by unfold mainRun; simp [hl], rfl, rfl, rfl⟩
  | ok cards =>
    refine ⟨⟨[], 0, ["--height and --pixel-height must be > 0"], [], none, 1⟩, ?_, rfl, rfl, rfl⟩
    unfold mainRun
    simp only [hl]
    rw [if_pos (h.elim Or.inr Or.inl)]

/-- Witness for C7 at height 0. -/
theorem C7_invalid_heights_fail_witness :
    ((0 : Int) ≤ 0 ∨ (64 : Int) ≤ 0) ∧
      ∃ r, mainRun ⟨[], fun _ => false⟩ (mkManifest []) ⟨0, 64, 28, false⟩ = .ok r ∧
        r.exitCode = 1 ∧ r.processed = [] ∧ r.sheet = none :=
  ⟨Or.inl (by decide),
   C7_invalid_heights_fail ⟨[], fun _ => false⟩ (mkManifest []) ⟨0, 64, 28, false⟩
     (Or.inl (by decide))⟩

end ClaimC7

section ClaimC3

/-- **C3 (counterexample).** The claim says a manifest with a missing `cards`
key fails with exit code 1; in fact `data.get("cards", [])` turns the missing
key into an empty list and the run exits 0: at the concrete manifest `{}` the
run returns exit code 0, not 1. -/
theorem C3_missing_key_counterexample :
    (List.lookup "cards" ([] : List (String × Json))) = none ∧
    load_cards (Json.obj []) = .ok [] ∧
    mainRun ⟨[], fun _ => false⟩ (Json.obj []) ⟨256, 64, 28, false⟩ =
      .ok ⟨[], 0, [], [], none, 0⟩ ∧
    (⟨[], 0, [], [], none, 0⟩ : RunResult).exitCode ≠ 1 :=
  ⟨rfl, rfl, rfl, by decide⟩

/-- **C3 (amended).** If the manifest object's `cards` key is present with a
non-list value, the run fails immediately with exit code 1 and processes no
cards; a *missing* `cards` key is instead treated as an empty card list and
the run proceeds normally, exiting 0 (for valid height parameters) with no
cards processed. -/
theorem C3_amended_cards_handling (env : Env) (args : Args)
    (fields : List (String × Json))
    (hh : 0 < args.height) (hp : 0 < args.pixelHeight)
    (hbad : ∀ v, fields.lookup "cards" = some v → ∀ l, v ≠ Json.arr l) :
    ∃ r, mainRun env (Json.obj fields) args = .ok r ∧ r.processed = [] ∧
      r.exitCode = (if (fields.lookup "cards").isSome then 1 else 0) := by
  cases hv : fields.lookup "cards" with
  | some v =>
    have hlc : load_cards (Json.obj fields) =
        .error "cards.json format is invalid: expected key \x27cards\x27 as list." := by
      unfold load_cards
      simp only [hv, Option.getD_some]
      cases v <;> first | rfl | exact absurd rfl (hbad _ hv _)
    have hmain : mainRun env (Json.obj fields) args =
        .ok ⟨[], 0,
             ["Failed to load cards manifest: " ++
                "cards.json format is invalid: expected key \x27cards\x27 as list."],
             [], none, 1⟩ := by
      unfold mainRun
      simp [hlc]
    exact ⟨_, hmain, rfl, by simp [hv]⟩
  | none =>
    have hlc : load_cards (Json.obj fields) = .ok [] := by
      unfold load_cards
      simp [hv]
    have hcond : ¬(args.pixelHeight ≤ 0 ∨ args.height ≤ 0) := by omega
    unfold mainRun
    simp only [hlc]
    rw [if_neg hcond]
    simp only [runCards_nil]
    refine ⟨_, rfl, ?_, ?_⟩
    · rfl
    · simp

/-- Witness for the amended C3 at a manifest whose `cards` value is a string. -/
theorem C3_amended_cards_handling_witness :
    ((0 : Int) < 256 ∧ (0 : Int) < 64) ∧
    ∃ r, mainRun ⟨[], fun _ => false⟩ (Json.obj [("cards", Json.str "oops")])
        ⟨256, 64, 28, false⟩ = .ok r ∧ r.processed = [] ∧
      r.exitCode =
        (if (List.lookup "cards" [("cards", Json.str "oops")]).isSome then 1 else 0) :=
  ⟨⟨by decide, by decide⟩,
   C3_amended_cards_handling ⟨[], fun _ => false⟩ ⟨256, 64, 28, false⟩
     [("cards", Json.str "oops")] (by decide) (by decide)
     (fun v hv l hl => by
       have hv2 : Json.str "oops" = v := Option.some.inj hv
       subst hv2
       exact Json.noConfusion hl)⟩

end ClaimC3

section ClaimC1

theorem runCards_outs_shape (env : Env) (fw fh pw ph : Nat) (q : Int) :
    ∀ cards r, runCards env fw fh pw ph q cards = .ok r →
      ∀ x ∈ r.outs, ∃ img, x.2 = process_one img fw fh pw ph q := by
  intro cards
  induction cards with
  | nil =>
    intro r h x hx
    rw [runCards_nil] at h
    cases h
    simp at hx
  | cons card rest ih =>
    intro r h x hx
    cases card with
    | obj fields =>
      rw [runCards_cons_obj] at h
      cases hr : runCards env fw fh pw ph q rest with
      | error e =>
        rw [hr] at h
        exact Except.noConfusion h
      | ok r2 =>
        simp only [hr] at h
        by_cases hs : entrySlug fields = ""
        · rw [if_pos hs] at h
          injection h with h2
          subst h2
          exact ih r2 hr x hx
        · rw [if_neg hs] at h
          cases hf : find_source_image env (entrySlug fields) with
          | none =>
            simp only [hf] at h
            injection h with h2
            subst h2
            exact ih r2 hr x hx
          | some pi =>
            obtain ⟨p, img⟩ := pi
            simp only [hf] at h
            cases hio : env.ioFail p with
            | true =>
              simp only [hio, if_true] at h
              injection h with h2
              subst h2
              exact ih r2 hr x hx
            | false =>
              simp only [hio, if_false] at h
              injection h with h2
              subst h2
              rcases List.mem_cons.mp hx with rfl | hx2
              · exact ⟨img, rfl⟩
              · exact ih r2 hr x hx2
    | null => simp [runCards] at h
    | bool b => simp [runCards] at h
    | num n => simp [runCards] at h
    | str s => simp [runCards] at h
    | arr l => simp [runCards] at h

/-- **C1.** For every run with CLI parameters height > 0 and pixel-height > 0,
every processed card image the pipeline writes has pixel dimensions exactly
(round(height·0.75), height) — the same pair for the whole batch. -/
theorem C1_output_dimensions (env : Env) (manifest : Json) (args : Args) (r : RunResult)
    (hmain : mainRun env manifest args = .ok r)
    (hh : 0 < args.height) (hp : 0 < args.pixelHeight) :
    ∀ x ∈ r.processed,
      x.2.width = pyRound34 args.height.toNat ∧ x.2.height = args.height.toNat := by
  unfold mainRun at hmain
  cases hl : load_cards manifest with
  | error msg =>
    simp only [hl] at hmain
    injection hmain with h2
    subst h2
    intro x hx
    simp at hx
  | ok cards =>
    simp only [hl] at hmain
    rw [if_neg (by omega)] at hmain
    cases hrc : runCards env (finalWidthOf args) (finalHeightOf args)
        (pixelWidthOf args) (pixelHeightOf args) args.quantize cards with
    | error e =>
      rw [hrc] at hmain
      exact Except.noConfusion hmain
    | ok lr =>
      simp only [hrc] at hmain
      injection hmain with h2
      subst h2
      intro x hx
      obtain ⟨img, hximg⟩ :=
        runCards_outs_shape env (finalWidthOf args) (finalHeightOf args)
          (pixelWidthOf args) (pixelHeightOf args) args.quantize cards lr hrc x hx
      have hfh : 0 < finalHeightOf args := by
        unfold finalHeightOf
        omega
      constructor
      · rw [hximg, process_one_width _ _ _ _ _ _ hfh]
        unfold finalWidthOf
        have := pyRound34_pos (finalHeightOf args) hfh
        unfold finalHeightOf at *
        omega
      · rw [hximg, process_one_height]
        rfl

/-- Witness for C1: a one-card run at height 4, pixel height 2. -/
theorem C1_output_dimensions_witness :
    (mainRun sampleEnv sampleManifest sampleArgs =
        .ok (mainOut sampleEnv sampleManifest sampleArgs) ∧
      (0 : Int) < 4 ∧ (0 : Int) < 2) ∧
    ∀ x ∈ (mainOut sampleEnv sampleManifest sampleArgs).processed,
      x.2.width = pyRound34 (4 : Int).toNat ∧ x.2.height = (4 : Int).toNat :=
  ⟨⟨by decide, by decide, by decide⟩,
   C1_output_dimensions sampleEnv sampleManifest sampleArgs
     (mainOut sampleEnv sampleManifest sampleArgs) (by decide) (by decide) (by decide)⟩

end ClaimC1

section ClaimC2

/-- **C2 (counterexample).** The claim says the horizontal crop width equals
`round(height * 0.75)`; the code uses `int(...)` truncation.  On a 3×2 source
(ratio 3/2 > 3/4) the crop width is `int(1.5) = 1` while `round(1.5) = 2`. -/
theorem C2_crop_width_counterexample :
    4 * sampleSrc.width > 3 * sampleSrc.height ∧
    (center_crop_to_ratio sampleSrc).height = sampleSrc.height ∧
    (center_crop_to_ratio sampleSrc).width = 1 ∧
    pyRound34 sampleSrc.height = 2 ∧
    (center_crop_to_ratio sampleSrc).width ≠ pyRound34 sampleSrc.height := by
  decide

/-- **C2 (amended).** For a source with `width/height > 3/4`,
`center_crop_to_ratio` keeps the height and crops the width to
`int(height * 0.75) = ⌊3h/4⌋` (truncation, not rounding), horizontally
centered: the discarded margins `x0` and `w - nw - x0` differ by at most one
pixel and the content is the window starting at `x0 = (w - nw) // 2`.
Symmetrically, a source at or below ratio 3/4 keeps the width and is cropped
to height `int(width / 0.75) = ⌊4w/3⌋`, vertically centered. -/
theorem C2_center_crop_floor (img : Img) (hwf : Wf img)
    (hh : 0 < img.height) (hw : 0 < img.width) :
    (4 * img.width > 3 * img.height →
      (center_crop_to_ratio img).height = img.height ∧
      (center_crop_to_ratio img).width = 3 * img.height / 4 ∧
      (img.width - 3 * img.height / 4) - (img.width - 3 * img.height / 4) / 2 ≤
        (img.width - 3 * img.height / 4) / 2 + 1 ∧
      (img.width - 3 * img.height / 4) / 2 ≤
        ((img.width - 3 * img.height / 4) - (img.width - 3 * img.height / 4) / 2) + 1 ∧
      ∀ x y, x < 3 * img.height / 4 → y < img.height →
        getPix (center_crop_to_ratio img) x y =
          getPix img ((img.width - 3 * img.height / 4) / 2 + x) y) ∧
    (¬ 4 * img.width > 3 * img.height →
      (center_crop_to_ratio img).width = img.width ∧
      (center_crop_to_ratio img).height = 4 * img.width / 3 ∧
      (img.height - 4 * img.width / 3) - (img.height - 4 * img.width / 3) / 2 ≤
        (img.height - 4 * img.width / 3) / 2 + 1 ∧
      (img.height - 4 * img.width / 3) / 2 ≤
        ((img.height - 4 * img.width / 3) - (img.height - 4 * img.width / 3) / 2) + 1 ∧
      ∀ x y, x < img.width → y < 4 * img.width / 3 →
        getPix (center_crop_to_ratio img) x y =
          getPix img x ((img.height - 4 * img.width / 3) / 2 + y)) := by
  constructor
  · intro hgt
    have hnw : 3 * img.height / 4 ≤ img.width := by omega
    have hcc : center_crop_to_ratio img =
        crop img ((img.width - 3 * img.height / 4) / 2) 0
          ((img.width - 3 * img.height / 4) / 2 + 3 * img.height / 4) img.height := by
      simp only [center_crop_to_ratio]
      rw [if_pos hgt]
    rw [hcc]
    refine ⟨?_, ?_, by omega, by omega, ?_⟩
    · rw [height_crop _ _ _ _ _ le_rfl (by omega)]
      omega
    · rw [width_crop _ _ _ _ _ hwf (by omega) le_rfl (by omega)]
      omega
    · intro x y hx hy
      rw [getPix_crop _ _ _ _ _ _ _ (by omega) (by omega), Nat.zero_add]
  · intro hle
    have hnh : 4 * img.width / 3 ≤ img.height := by omega
    have hnhpos : 0 < 4 * img.width / 3 := by omega
    have hcc : center_crop_to_ratio img =
        crop img 0 ((img.height - 4 * img.width / 3) / 2) img.width
          ((img.height - 4 * img.width / 3) / 2 + 4 * img.width / 3) := by
      simp only [center_crop_to_ratio]
      rw [if_neg hle]
    rw [hcc]
    refine ⟨?_, ?_, by omega, by omega, ?_⟩
    · rw [width_crop _ _ _ _ _ hwf (by omega) (by omega) (by omega)]
      omega
    · rw [height_crop _ _ _ _ _ (by omega) (by omega)]
      omega
    · intro x y hx hy
      rw [getPix_crop _ _ _ _ _ _ _ (by omega) (by omega), Nat.zero_add]

/-- Witness for the amended C2 on the 3×2 sample (wider-than-target branch). -/
theorem C2_center_crop_floor_witness :
    (Wf sampleSrc ∧ 0 < sampleSrc.height ∧ 0 < sampleSrc.width ∧
      4 * sampleSrc.width > 3 * sampleSrc.height) ∧
    (center_crop_to_ratio sampleSrc).height = sampleSrc.height ∧
    (center_crop_to_ratio sampleSrc).width = 3 * sampleSrc.height / 4 :=
  ⟨⟨by decide, by decide, by decide, by decide⟩,
   ((C2_center_crop_floor sampleSrc (by decide) (by decide) (by decide)).1 (by decide)).1,
   ((C2_center_crop_floor sampleSrc (by decide) (by decide) (by decide)).1 (by decide)).2.1⟩

end ClaimC2

section ClaimC8

/-- **C8.** The per-card transform pipeline is a deterministic pure function
of the decoded source raster and the parameter values: two runs on identical
inputs with identical parameters produce pixel-identical outputs.  (In the
embedding every pipeline stage is a pure function with no ambient state, so
the equality is definitional.) -/
theorem C8_pipeline_deterministic (src1 src2 : Img) (fw fh pw ph : Nat) (q1 q2 : Int)
    (hsrc : src1 = src2) (hq : q1 = q2) :
    process_one src1 fw fh pw ph q1 = process_one src2 fw fh pw ph q2 := by
  rw [hsrc, hq]

/-- Witness for C8: two runs of the pipeline on the sample raster agree. -/
theorem C8_pipeline_deterministic_witness :
    (sampleSrc = sampleSrc ∧ (28 : Int) = 28) ∧
    process_one sampleSrc 3 4 2 2 28 = process_one sampleSrc 3 4 2 2 28 :=
  ⟨⟨rfl, rfl⟩, C8_pipeline_deterministic sampleSrc sampleSrc 3 4 2 2 28 28 rfl rfl⟩

end ClaimC8

section ClaimC10

/-- **C10.** When the contact-sheet flag is set but zero cards were processed
successfully, no contact sheet is produced (`create_contact_sheet` returns
immediately on an empty list), yet the run still logs that the contact sheet
was generated. -/
theorem C10_empty_contact_sheet (env : Env) (args : Args) (cards : List Json)
    (f : Nat) (el ol : List String)
    (hh : 0 < args.height) (hp : 0 < args.pixelHeight)
    (hflag : args.contactSheet = true)
    (hrun : runCards env (finalWidthOf args) (finalHeightOf args)
        (pixelWidthOf args) (pixelHeightOf args) args.quantize cards = .ok ⟨[], f, el, ol⟩) :
    create_contact_sheet [] (finalWidthOf args) (finalHeightOf args) = none ∧
    ∃ r, mainRun env (mkManifest cards) args = .ok r ∧ r.sheet = none ∧
      "Generated contact sheet -> assets/processed/contact_sheet.png" ∈ r.okLog := by
  refine ⟨rfl, ?_⟩
  have hlc : load_cards (mkManifest cards) = .ok cards := rfl
  unfold mainRun
  simp only [hlc]
  rw [if_neg (by omega)]
  simp only [hrun]
  refine ⟨_, rfl, ?_, ?_⟩
  · simp [hflag]
    rfl
  · simp [hflag]

/-- Witness for C10: flag set, empty manifest, so zero processed cards. -/
theorem C10_empty_contact_sheet_witness :
    ((0 : Int) < 4 ∧ (0 : Int) < 2 ∧ sampleArgsCS.contactSheet = true ∧
      runCards sampleEnv (finalWidthOf sampleArgsCS) (finalHeightOf sampleArgsCS)
        (pixelWidthOf sampleArgsCS) (pixelHeightOf sampleArgsCS) sampleArgsCS.quantize [] =
        .ok ⟨[], 0, [], []⟩) ∧
    create_contact_sheet [] (finalWidthOf sampleArgsCS) (finalHeightOf sampleArgsCS) = none ∧
    ∃ r, mainRun sampleEnv (mkManifest []) sampleArgsCS = .ok r ∧ r.sheet = none ∧
      "Generated contact sheet -> assets/processed/contact_sheet.png" ∈ r.okLog :=
  ⟨⟨by decide, by decide, rfl, rfl⟩,
   C10_empty_contact_sheet sampleEnv sampleArgsCS [] 0 [] []
     (by decide) (by decide) rfl rfl⟩

end ClaimC10

section BatchLemmas

/-- A prefix of successfully processed cards contributes one output and one
log line per card, and no failures, to any continuation of the loop. -/
theorem runCards_good_prefix (env : Env) (fw fh pw ph : Nat) (q : Int) :
    ∀ as, (∀ x ∈ as, goodCard env x = true) →
      ∃ oa ola, oa.length = as.length ∧
        ∀ xs rx, runCards env fw fh pw ph q xs = .ok rx →
          runCards env fw fh pw ph q (as ++ xs) =
            .ok ⟨oa ++ rx.outs, rx.failures, rx.errLog, ola ++ rx.okLog⟩ := by
  intro as
  induction as with
  | nil => exact fun _ => ⟨[], [], rfl, fun xs rx hx => hx⟩
  | cons a as ih =>
    intro hgood
    have ha := hgood a (List.mem_cons_self a as)
    have has : ∀ x ∈ as, goodCard env x = true :=
      fun x hx => hgood x (List.mem_cons_of_mem _ hx)
    obtain ⟨oa, ola, hlen, hprop⟩ := ih has
    cases a with
    | obj fields =>
      by_cases hs : entrySlug fields = ""
      · simp only [goodCard] at ha
        rw [if_pos hs] at ha
        exact absurd ha (by simp)
      · simp only [goodCard] at ha
        rw [if_neg hs] at ha
        cases hf : find_source_image env (entrySlug fields) with
        | none =>
          simp only [hf] at ha
          exact absurd ha (by simp)
        | some pi =>
          obtain ⟨p, img⟩ := pi
          simp only [hf] at ha
          have hio : env.ioFail p = false := by simpa using ha
          refine ⟨("assets/processed/" ++ entrySlug fields ++ ".png",
                     process_one img fw fh pw ph q) :: oa,
                  ("Processed " ++ entryName fields (entrySlug fields) ++
                     " -> assets/processed/" ++ entrySlug fields ++ ".png") :: ola,
                  by simp [hlen], ?_⟩
          intro xs rx hx
          have hrec := hprop xs rx hx
          rw [List.cons_append,
            runCards_cons_good env fw fh pw ph q fields (as ++ xs) _ p img hs hf hio hrec]
          rfl
    | null => exact absurd ha (by simp [goodCard])
    | bool b => exact absurd ha (by simp [goodCard])
    | num n => exact absurd ha (by simp [goodCard])
    | str s => exact absurd ha (by simp [goodCard])
    | arr l => exact absurd ha (by simp [goodCard])

/-- A list of good cards alone runs with no failures and no stderr lines. -/
theorem runCards_all_good (env : Env) (fw fh pw ph : Nat) (q : Int)
    (bs : List Json) (hgood : ∀ x ∈ bs, goodCard env x = true) :
    ∃ ob olb, (ob : List (String × Img)).length = bs.length ∧
      runCards env fw fh pw ph q bs = .ok ⟨ob, 0, [], olb⟩ := by
  obtain ⟨ob, olb, hlen, hprop⟩ := runCards_good_prefix env fw fh pw ph q bs hgood
  have h := hprop [] ⟨[], 0, [], []⟩ (runCards_nil env fw fh pw ph q)
  rw [List.append_nil] at h
  exact ⟨ob, olb, hlen, by simpa using h⟩

/-- The loop never crashes on a list of dict entries. -/
theorem runCards_obj_ok (env : Env) (fw fh pw ph : Nat) (q : Int) :
    ∀ cs, (∀ x ∈ cs, x.isObj = true) →
      ∃ lr, runCards env fw fh pw ph q cs = .ok lr := by
  intro cs
  induction cs with
  | nil => exact fun _ => ⟨_, runCards_nil env fw fh pw ph q⟩
  | cons c cs ih =>
    intro hobj
    obtain ⟨lr, hr⟩ := ih fun x hx => hobj x (List.mem_cons_of_mem _ hx)
    have hc := hobj c (List.mem_cons_self c cs)
    cases c with
    | obj fields =>
      rw [runCards_cons_obj]
      simp only [hr]
      by_cases hs : entrySlug fields = ""
      · rw [if_pos hs]
        exact ⟨_, rfl⟩
      · rw [if_neg hs]
        cases hf : find_source_image env (entrySlug fields) with
        | none =>
          simp only [hf]
          exact ⟨_, rfl⟩
        | some pi =>
          obtain ⟨p, img⟩ := pi
          simp only [hf]
          by_cases hio : env.ioFail p = true
          · rw [if_pos hio]
            exact ⟨_, rfl⟩
          · rw [if_neg hio]
            exact ⟨_, rfl⟩
    | null => exact absurd hc (by simp [Json.isObj])
    | bool b => exact absurd hc (by simp [Json.isObj])
    | num n => exact absurd hc (by simp [Json.isObj])
    | str s => exact absurd hc (by simp [Json.isObj])
    | arr l => exact absurd hc (by simp [Json.isObj])

end BatchLemmas

section ClaimC4

/-- **C4.** A manifest of N records in which exactly one slug has no source
image under any probed extension, all others processing successfully, does not
abort the batch: exactly N−1 outputs are produced, the run exits 1, and the
single stderr line names the missing slug. -/
theorem C4_missing_source_continues (env : Env) (args : Args)
    (as bs : List Json) (c : Json)
    (hgood : ∀ x ∈ as ++ bs, goodCard env x = true)
    (hmiss : missingCard env c = true)
    (hh : 0 < args.height) (hp : 0 < args.pixelHeight) :
    ∃ r, mainRun env (mkManifest (as ++ c :: bs)) args = .ok r ∧
      r.processed.length = (as ++ c :: bs).length - 1 ∧
      r.failures = 1 ∧ r.exitCode = 1 ∧
      r.errLog = ["Missing source image for " ++ slugStr c ++ " in assets/source"] := by
  cases c with
  | obj cf =>
    simp only [missingCard] at hmiss
    by_cases hs : entrySlug cf = ""
    · rw [if_pos hs] at hmiss
      exact absurd hmiss (by simp)
    · rw [if_neg hs] at hmiss
      have hf : find_source_image env (entrySlug cf) = none :=
        Option.isNone_iff_eq_none.mp hmiss
      have has : ∀ x ∈ as, goodCard env x = true :=
        fun x hx => hgood x (List.mem_append_left _ hx)
      have hbs : ∀ x ∈ bs, goodCard env x = true :=
        fun x hx => hgood x (List.mem_append_right _ hx)
      obtain ⟨ob, olb, hoblen, hrunbs⟩ :=
        runCards_all_good env (finalWidthOf args) (finalHeightOf args)
          (pixelWidthOf args) (pixelHeightOf args) args.quantize bs hbs
      have hruncbs :
          runCards env (finalWidthOf args) (finalHeightOf args)
            (pixelWidthOf args) (pixelHeightOf args) args.quantize (Json.obj cf :: bs) =
          .ok ⟨ob, 1, ["Missing source image for " ++ entrySlug cf ++ " in assets/source"],
               olb⟩ :=
        runCards_cons_missing env (finalWidthOf args) (finalHeightOf args)
          (pixelWidthOf args) (pixelHeightOf args) args.quantize cf bs
          ⟨ob, 0, [], olb⟩ hs hf hrunbs
      obtain ⟨oa, ola, hoalen, hprop⟩ :=
        runCards_good_prefix env (finalWidthOf args) (finalHeightOf args)
          (pixelWidthOf args) (pixelHeightOf args) args.quantize as has
      have hrun := hprop (Json.obj cf :: bs) _ hruncbs
      have hlc : load_cards (mkManifest (as ++ Json.obj cf :: bs)) =
          .ok (as ++ Json.obj cf :: bs) := rfl
      unfold mainRun
      simp only [hlc]
      rw [if_neg (by omega)]
      simp only [hrun]
      refine ⟨_, rfl, ?_, ?_, ?_, ?_⟩
      · simp [hoalen, hoblen]
      · rfl
      · rfl
      · simp [slugStr]
  | null => exact absurd hmiss (by simp [missingCard])
  | bool b => exact absurd hmiss (by simp [missingCard])
  | num n => exact absurd hmiss (by simp [missingCard])
  | str s => exact absurd hmiss (by simp [missingCard])
  | arr l => exact absurd hmiss (by simp [missingCard])

/-- Witness for C4: slugs `a`, `c`, `b` with sources for `a` and `b` only. -/
theorem C4_missing_source_continues_witness :
    ((∀ x ∈ [cardA] ++ [cardB], goodCard envAB x = true) ∧
      missingCard envAB cardC = true ∧ (0 : Int) < 4 ∧ (0 : Int) < 2) ∧
    ∃ r, mainRun envAB (mkManifest ([cardA] ++ cardC :: [cardB])) sampleArgs = .ok r ∧
      r.processed.length = ([cardA] ++ cardC :: [cardB]).length - 1 ∧
      r.failures = 1 ∧ r.exitCode = 1 ∧
      r.errLog = ["Missing source image for " ++ slugStr cardC ++ " in assets/source"] :=
  ⟨⟨by decide, by decide, by decide, by decide⟩,
   C4_missing_source_continues envAB sampleArgs [cardA] [cardB] cardC
     (by decide) (by decide) (by decide) (by decide)⟩

end ClaimC4

section ClaimC9

/-- **C9.** A manifest entry whose slug is missing or blank after stripping is
skipped and counted as a per-card failure: compared with the same run without
that entry, the processed outputs are identical (nothing is written for it),
the failure count is one higher, the malformed entry is logged, and the run
exits 1 — the batch continues through the remaining entries. -/
theorem C9_blank_slug_skipped (env : Env) (args : Args) (as bs : List Json) (c : Json)
    (has : ∀ x ∈ as, goodCard env x = true)
    (hbs : ∀ x ∈ bs, x.isObj = true)
    (hc : blankCard c = true)
    (hh : 0 < args.height) (hp : 0 < args.pixelHeight) :
    ∃ r r2, mainRun env (mkManifest (as ++ bs)) args = .ok r ∧
      mainRun env (mkManifest (as ++ c :: bs)) args = .ok r2 ∧
      r2.processed = r.processed ∧
      r2.failures = r.failures + 1 ∧
      r2.exitCode = 1 ∧
      ("Skipping malformed manifest entry: " ++ pyRepr c) ∈ r2.errLog := by
  cases c with
  | obj cf =>
    have hs : entrySlug cf = "" := by simpa [blankCard] using hc
    obtain ⟨lrb, hlrb⟩ :=
      runCards_obj_ok env (finalWidthOf args) (finalHeightOf args)
        (pixelWidthOf args) (pixelHeightOf args) args.quantize bs hbs
    have hcons :=
      runCards_cons_blank env (finalWidthOf args) (finalHeightOf args)
        (pixelWidthOf args) (pixelHeightOf args) args.quantize cf bs lrb hs hlrb
    obtain ⟨oa, ola, hoalen, hprop⟩ :=
      runCards_good_prefix env (finalWidthOf args) (finalHeightOf args)
        (pixelWidthOf args) (pixelHeightOf args) args.quantize as has
    have hrun1 := hprop bs lrb hlrb
    have hrun2 := hprop (Json.obj cf :: bs) _ hcons
    have hcond : ¬(args.pixelHeight ≤ 0 ∨ args.height ≤ 0) := by omega
    unfold mainRun
    simp only [show load_cards (mkManifest (as ++ bs)) = .ok (as ++ bs) from rfl,
      show load_cards (mkManifest (as ++ Json.obj cf :: bs)) =
          .ok (as ++ Json.obj cf :: bs) from rfl]
    simp only [if_neg hcond]
    simp only [hrun1, hrun2]
    refine ⟨_, _, rfl, rfl, ?_, ?_, ?_, ?_⟩
    · rfl
    · rfl
    · rfl
    · simp
  | null => exact absurd hc (by simp [blankCard])
  | bool b => exact absurd hc (by simp [blankCard])
  | num n => exact absurd hc (by simp [blankCard])
  | str s => exact absurd hc (by simp [blankCard])
  | arr l => exact absurd hc (by simp [blankCard])

/-- Witness for C9: good card `a`, slug-less entry, object card `b`. -/
theorem C9_blank_slug_skipped_witness :
    ((∀ x ∈ [cardA], goodCard envAB x = true) ∧
      (∀ x ∈ [cardB], x.isObj = true) ∧ blankCard cardBlank = true ∧
      (0 : Int) < 4 ∧ (0 : Int) < 2) ∧
    ∃ r r2, mainRun envAB (mkManifest ([cardA] ++ [cardB])) sampleArgs = .ok r ∧
      mainRun envAB (mkManifest ([cardA] ++ cardBlank :: [cardB])) sampleArgs = .ok r2 ∧
      r2.processed = r.processed ∧
      r2.failures = r.failures + 1 ∧
      r2.exitCode = 1 ∧
      ("Skipping malformed manifest entry: " ++ pyRepr cardBlank) ∈ r2.errLog :=
  ⟨⟨by decide, by decide, by decide, by decide, by decide⟩,
   C9_blank_slug_skipped envAB sampleArgs [cardA] [cardB] cardBlank
     (by decide) (by decide) (by decide) (by decide) (by decide)⟩

end ClaimC9

section ColorLemmas

theorem foldl_pick_mem (p : Rgb) (l : List Rgb) :
    ∀ (cs : List Rgb) (b : Rgb), b ∈ l → (∀ x ∈ cs, x ∈ l) →
      (cs.foldl (fun best c2 => if dist2 c2 p < dist2 best p then c2 else best) b) ∈ l := by
  intro cs
  induction cs with
  | nil => intro b hb _; simpa using hb
  | cons c2 cs ih =>
    intro b hb hsub
    simp only [List.foldl_cons]
    apply ih
    · by_cases hlt : dist2 c2 p < dist2 b p
      · simpa [hlt] using hsub c2 (List.mem_cons_self c2 cs)
      · simpa [hlt] using hb
    · exact fun x hx => hsub x (List.mem_cons_of_mem _ hx)

theorem nearestColor_mem (pal : List Rgb) (p : Rgb) (h : pal ≠ []) :
    nearestColor pal p ∈ pal := by
  cases pal with
  | nil => exact absurd rfl h
  | cons c cs =>
    unfold nearestColor
    exact foldl_pick_mem p (c :: cs) cs c (List.mem_cons_self c cs)
      (fun x hx => List.mem_cons_of_mem _ hx)

theorem colorCount_eq_card (i : Img) : colorCount i = i.data.flatten.toFinset.card := by
  unfold colorCount imageColors
  rw [← List.toFinset_card_of_nodup (i.data.flatten.nodup_dedup)]
  congr 1
  ext a
  simp [List.mem_dedup]

theorem width_quantize (i : Img) (n : Nat) : (quantizeMedianCut i n).width = i.width := by
  unfold quantizeMedianCut Img.width
  cases i.data with
  | nil => rfl
  | cons r rows => simp

theorem wf_quantize (i : Img) (n : Nat) (hwf : Wf i) : Wf (quantizeMedianCut i n) := by
  intro row hrow
  rw [width_quantize]
  have hq : (quantizeMedianCut i n).data =
      i.data.map fun row => row.map fun p =>
        nearestColor (i.data.flatten.dedup.take n) p := rfl
  rw [hq] at hrow
  obtain ⟨row0, hrow0, rfl⟩ := List.mem_map.mp hrow
  simpa using hwf row0 hrow0

theorem colorCount_quantize_le (i : Img) (n : Nat) (hn : 0 < n) :
    colorCount (quantizeMedianCut i n) ≤ n := by
  have hq : quantizeMedianCut i n =
      ⟨i.data.map fun row => row.map fun p =>
        nearestColor (i.data.flatten.dedup.take n) p⟩ := rfl
  rw [colorCount_eq_card, hq]
  have hflat : (Img.mk (i.data.map fun row => row.map fun p =>
      nearestColor (i.data.flatten.dedup.take n) p)).data.flatten =
      i.data.flatten.map fun p => nearestColor (i.data.flatten.dedup.take n) p := by
    simp [List.map_flatten]
  rw [hflat]
  by_cases h0 : i.data.flatten = []
  · simp [h0]
  · have hpalne : i.data.flatten.dedup.take n ≠ [] := by
      intro hnil
      rcases List.take_eq_nil_iff.mp hnil with h | h
      · omega
      · exact absurd ((List.dedup_eq_nil _).mp h) h0
    have hsub : (i.data.flatten.map fun p =>
        nearestColor (i.data.flatten.dedup.take n) p).toFinset ⊆
        (i.data.flatten.dedup.take n).toFinset := by
      intro c hc
      simp only [List.mem_toFinset, List.mem_map] at hc ⊢
      obtain ⟨p, _, rfl⟩ := hc
      exact nearestColor_mem _ p hpalne
    calc (i.data.flatten.map fun p =>
          nearestColor (i.data.flatten.dedup.take n) p).toFinset.card
        ≤ (i.data.flatten.dedup.take n).toFinset.card := Finset.card_le_card hsub
      _ ≤ (i.data.flatten.dedup.take n).length := List.toFinset_card_le _
      _ ≤ n := List.length_take_le n _

theorem getPix_mem (i : Img) (x y : Nat) (hwf : Wf i) (hy : y < i.height) (hx : x < i.width) :
    getPix i x y ∈ i.data.flatten := by
  unfold getPix
  have hrow : i.data.getD y [] ∈ i.data := by
    rw [List.getD_eq_getElem?_getD]
    cases h : i.data[y]? with
    | none =>
      exfalso
      rw [List.getElem?_eq_none_iff] at h
      exact absurd hy (by unfold Img.height; omega)
    | some row => simpa using List.getElem?_mem h
  have hlen : (i.data.getD y []).length = i.width := hwf _ hrow
  have hpix : ∀ row : List Rgb, row.length = i.width → row.getD x (0, 0, 0) ∈ row := by
    intro row hrl
    rw [List.getD_eq_getElem?_getD]
    cases h : row[x]? with
    | none =>
      exfalso
      rw [List.getElem?_eq_none_iff] at h
      omega
    | some p => simpa using List.getElem?_mem h
  exact List.mem_flatten.mpr ⟨_, hrow, hpix _ hlen⟩

theorem colorCount_resize_le (i : Img) (nw nh : Nat) (hwf : Wf i) (n : Nat)
    (hc : colorCount i ≤ n) (hn : 1 ≤ n) :
    colorCount (resizeNearest i nw nh) ≤ n := by
  rw [colorCount_eq_card] at hc ⊢
  have hshape : ∀ c ∈ (resizeNearest i nw nh).data.flatten, ∃ x y, x < nw ∧ y < nh ∧
      c = getPix i ((2 * x + 1) * i.width / (2 * nw))
            ((2 * y + 1) * i.height / (2 * nh)) := by
    intro c hcm
    simp only [resizeNearest, mkImg, List.mem_flatten, List.mem_map] at hcm
    obtain ⟨row, ⟨y, hy, rfl⟩, hcrow⟩ := hcm
    obtain ⟨x, hxr, rfl⟩ := List.mem_map.mp hcrow
    exact ⟨x, y, List.mem_range.mp hxr, List.mem_range.mp hy, rfl⟩
  by_cases hflat : i.data.flatten = []
  · have hallnil := List.flatten_eq_nil_iff.mp hflat
    have hgp : ∀ x y : Nat, getPix i x y = (0, 0, 0) := by
      intro x y
      have hrownil : i.data.getD y [] = [] := by
        rw [List.getD_eq_getElem?_getD]
        cases h : i.data[y]? with
        | none => rfl
        | some row => simpa using hallnil row (List.getElem?_mem h)
      unfold getPix
      rw [hrownil]
      rfl
    have hsub : (resizeNearest i nw nh).data.flatten.toFinset ⊆ {((0 : Nat), (0 : Nat), (0 : Nat))} := by
      intro c hcm
      simp only [List.mem_toFinset] at hcm
      obtain ⟨x, y, _, _, rfl⟩ := hshape c hcm
      simp [hgp]
    calc (resizeNearest i nw nh).data.flatten.toFinset.card
        ≤ ({((0 : Nat), (0 : Nat), (0 : Nat))} : Finset Rgb).card := Finset.card_le_card hsub
      _ = 1 := rfl
      _ ≤ n := hn
  · have hhpos : 0 < i.height := by
      unfold Img.height
      cases hd : i.data with
      | nil => exact absurd (by simp [hd]) hflat
      | cons r rows => simp
    have hwpos : 0 < i.width := by
      obtain ⟨p, hp⟩ := List.exists_mem_of_ne_nil _ hflat
      obtain ⟨row, hrow, hprow⟩ := List.mem_flatten.mp hp
      have := hwf row hrow
      have : 0 < row.length := List.length_pos_of_mem hprow
      omega
    have hsub : (resizeNearest i nw nh).data.flatten.toFinset ⊆ i.data.flatten.toFinset := by
      intro c hcm
      simp only [List.mem_toFinset] at hcm ⊢
      obtain ⟨x, y, hx, hy, rfl⟩ := hshape c hcm
      apply getPix_mem i _ _ hwf
      · apply (Nat.div_lt_iff_lt_mul (by omega : 0 < 2 * nh)).mpr
        calc (2 * y + 1) * i.height < 2 * nh * i.height :=
              (Nat.mul_lt_mul_right hhpos).mpr (by omega)
          _ = i.height * (2 * nh) := Nat.mul_comm _ _
      · apply (Nat.div_lt_iff_lt_mul (by omega : 0 < 2 * nw)).mpr
        calc (2 * x + 1) * i.width < 2 * nw * i.width :=
              (Nat.mul_lt_mul_right hwpos).mpr (by omega)
          _ = i.width * (2 * nw) := Nat.mul_comm _ _
    exact le_trans (Finset.card_le_card hsub) hc

/-- The whole pipeline emits at most `max(2, quantize)` distinct colors. -/
theorem colorCount_process_one_le (src : Img) (fw fh pw ph : Nat) (q : Int) :
    colorCount (process_one src fw fh pw ph q) ≤ (max 2 q).toNat := by
  have hn2 : 2 ≤ (max 2 q).toNat := by
    have := le_max_left 2 q
    omega
  have hwf2 : Wf (resizeNearest (center_crop_to_ratio src) pw ph) := wf_mkImg _ _ _
  have hq3 := colorCount_quantize_le (resizeNearest (center_crop_to_ratio src) pw ph)
    (max 2 q).toNat (by omega)
  have hwf3 := wf_quantize (resizeNearest (center_crop_to_ratio src) pw ph)
    (max 2 q).toNat hwf2
  exact colorCount_resize_le _ fw fh hwf3 _ hq3 (by omega)

end ColorLemmas

section ClaimC6

/-- **C6.** For every integer quantize parameter, including zero and negative
values, the per-card pipeline quantizes to `max(2, quantize)` colors and never
fails on account of the quantize value (the model's quantizer is total): any
`quantize ≤ 2` behaves exactly as `quantize = 2` and the resulting image has
at most 2 distinct colors. -/
theorem C6_quantize_clamped (src : Img) (fw fh pw ph : Nat) (q : Int) (hq : q ≤ 2) :
    process_one src fw fh pw ph q = process_one src fw fh pw ph 2 ∧
    colorCount (process_one src fw fh pw ph q) ≤ 2 := by
  have hmax : max 2 q = 2 := max_eq_left hq
  constructor
  · unfold process_one
    rw [hmax, max_self]
  · have h := colorCount_process_one_le src fw fh pw ph q
    rw [hmax] at h
    exact h

/-- Witness for C6 at quantize = 0 on the sample raster. -/
theorem C6_quantize_clamped_witness :
    ((0 : Int) ≤ 2) ∧
    process_one sampleSrc 3 4 2 2 0 = process_one sampleSrc 3 4 2 2 2 ∧
    colorCount (process_one sampleSrc 3 4 2 2 0) ≤ 2 :=
  ⟨by decide, C6_quantize_clamped sampleSrc 3 4 2 2 0 (by decide)⟩

end ClaimC6

section SheetLemmas

theorem width_paste (b t : Img) (x0 y0 : Nat) : (paste b t x0 y0).width = b.width := by
  unfold paste
  rcases Nat.eq_zero_or_pos b.height with h0 | hpos
  · have hnil : b.data = [] := List.length_eq_zero.mp h0
    simp [mkImg, Img.width, Img.height, hnil]
  · exact width_mkImg _ _ _ hpos

theorem height_paste (b t : Img) (x0 y0 : Nat) : (paste b t x0 y0).height = b.height :=
  height_mkImg _ _ _

theorem getPix_paste_in (b t : Img) (x0 y0 dx dy : Nat)
    (hdx : dx < t.width) (hdy : dy < t.height)
    (hxb : x0 + dx < b.width) (hyb : y0 + dy < b.height) :
    getPix (paste b t x0 y0) (x0 + dx) (y0 + dy) = getPix t dx dy := by
  unfold paste
  rw [getPix_mkImg _ _ _ _ _ hxb hyb,
    if_pos ⟨by omega, by omega, by omega, by omega⟩]
  congr 1 <;> omega

theorem getPix_paste_out (b t : Img) (x0 y0 x y : Nat)
    (hx : x < b.width) (hy : y < b.height)
    (hout : ¬(x0 ≤ x ∧ x < x0 + t.width ∧ y0 ≤ y ∧ y < y0 + t.height)) :
    getPix (paste b t x0 y0) x y = getPix b x y := by
  unfold paste
  rw [getPix_mkImg _ _ _ _ _ hx hy, if_neg hout]

theorem interval_disjoint (c c2 a w : Nat) (hne : c ≠ c2) (ha : a < w) :
    ¬(sheetMargin + c2 * (w + sheetMargin) ≤ sheetMargin + c * (w + sheetMargin) + a ∧
      sheetMargin + c * (w + sheetMargin) + a < sheetMargin + c2 * (w + sheetMargin) + w) := by
  rintro ⟨h1, h2⟩
  rcases Nat.lt_or_ge c c2 with hlt | hge
  · have hm : c * (w + sheetMargin) + (w + sheetMargin) ≤ c2 * (w + sheetMargin) := by
      have := Nat.mul_le_mul_right (k := w + sheetMargin) (Nat.succ_le_of_lt hlt)
      simpa [Nat.succ_mul] using this
    omega
  · have hgt : c2 < c := by omega
    have hm : c2 * (w + sheetMargin) + (w + sheetMargin) ≤ c * (w + sheetMargin) := by
      have := Nat.mul_le_mul_right (k := w + sheetMargin) (Nat.succ_le_of_lt hgt)
      simpa [Nat.succ_mul] using this
    omega

theorem slot_disjoint (tw th m m2 dx dy : Nat) (hne : m ≠ m2) (hdx : dx < tw) (hdy : dy < th) :
    ¬ inSlot tw th m2 (slotX tw m + dx) (slotY th m + dy) := by
  rintro ⟨hx1, hx2, hy1, hy2⟩
  unfold slotX at hx1 hx2
  unfold slotY at hy1 hy2
  by_cases hcol : m % sheetColumns = m2 % sheetColumns
  · have hrow : m / sheetColumns ≠ m2 / sheetColumns := by
      unfold sheetColumns at hcol ⊢
      omega
    exact interval_disjoint (m / sheetColumns) (m2 / sheetColumns) dy th hrow hdy ⟨hy1, hy2⟩
  · exact interval_disjoint (m % sheetColumns) (m2 % sheetColumns) dx tw hcol hdx ⟨hx1, hx2⟩

theorem slot_in_sheet (tw th N k : Nat) (hk : k < N) :
    slotX tw k + tw ≤ sheetColumns * tw + (sheetColumns + 1) * sheetMargin ∧
    slotY th k + th ≤ ((N + sheetColumns - 1) / sheetColumns) * th +
      (((N + sheetColumns - 1) / sheetColumns) + 1) * sheetMargin := by
  unfold slotX slotY sheetColumns sheetMargin
  constructor
  · calc 12 + k % 4 * (tw + 12) + tw ≤ 12 + 3 * (tw + 12) + tw := by
          have hc : k % 4 ≤ 3 := by omega
          have := mul_le_mul_right' hc (tw + 12)
          omega
      _ ≤ 4 * tw + (4 + 1) * 12 := by omega
  · have hr : k / 4 + 1 ≤ (N + 4 - 1) / 4 := by omega
    calc 12 + k / 4 * (th + 12) + th = (k / 4 + 1) * (th + 12) := by ring
      _ ≤ ((N + 4 - 1) / 4) * (th + 12) := mul_le_mul_right' hr (th + 12)
      _ = (N + 4 - 1) / 4 * th + (N + 4 - 1) / 4 * 12 := by ring
      _ ≤ (N + 4 - 1) / 4 * th + ((N + 4 - 1) / 4 + 1) * 12 := by omega

theorem width_pasteTiles (tw th : Nat) :
    ∀ ts s i, (pasteTiles tw th s i ts).width = s.width := by
  intro ts
  induction ts with
  | nil => intro s i; rfl
  | cons t ts ih =>
    intro s i
    simp only [pasteTiles]
    rw [ih, width_paste]

theorem height_pasteTiles (tw th : Nat) :
    ∀ ts s i, (pasteTiles tw th s i ts).height = s.height := by
  intro ts
  induction ts with
  | nil => intro s i; rfl
  | cons t ts ih =>
    intro s i
    simp only [pasteTiles]
    rw [ih, height_paste]

theorem getPix_pasteTiles_out (tw th : Nat) :
    ∀ ts (s : Img) i x y, x < s.width → y < s.height →
      (∀ t ∈ ts, t.width = tw ∧ t.height = th) →
      (∀ j, j < ts.length → ¬ inSlot tw th (i + j) x y) →
      getPix (pasteTiles tw th s i ts) x y = getPix s x y := by
  intro ts
  induction ts with
  | nil => intro s i x y _ _ _ _; rfl
  | cons t ts ih =>
    intro s i x y hx hy hdims hns
    simp only [pasteTiles]
    rw [ih _ (i + 1) x y (by rw [width_paste]; exact hx) (by rw [height_paste]; exact hy)
        (fun t2 ht2 => hdims t2 (List.mem_cons_of_mem _ ht2))
        (fun j hj => by
          have h := hns (j + 1) (by simpa using Nat.succ_lt_succ hj)
          rw [show i + (j + 1) = i + 1 + j from by omega] at h
          exact h)]
    apply getPix_paste_out _ _ _ _ _ _ hx hy
    have h0 := hns 0 (by simp)
    rw [Nat.add_zero] at h0
    rw [(hdims t (List.mem_cons_self _ _)).1, (hdims t (List.mem_cons_self _ _)).2]
    simpa [inSlot] using h0

theorem getPix_pasteTiles_in (tw th : Nat) :
    ∀ ts (s : Img) i j (hj : j < ts.length) dx dy, dx < tw → dy < th →
      (∀ t ∈ ts, t.width = tw ∧ t.height = th) →
      (∀ k, k < ts.length →
        slotX tw (i + k) + tw ≤ s.width ∧ slotY th (i + k) + th ≤ s.height) →
      getPix (pasteTiles tw th s i ts) (slotX tw (i + j) + dx) (slotY th (i + j) + dy) =
        getPix (ts.get ⟨j, hj⟩) dx dy := by
  intro ts
  induction ts with
  | nil =>
    intro s i j hj
    exact absurd hj (by simp)
  | cons t ts ih =>
    intro s i j hj dx dy hdx hdy hdims hbounds
    simp only [pasteTiles]
    cases j with
    | zero =>
      have hb := hbounds 0 (by simp)
      rw [Nat.add_zero] at hb
      have hw := (hdims t (List.mem_cons_self _ _)).1
      have hh2 := (hdims t (List.mem_cons_self _ _)).2
      have hout := getPix_pasteTiles_out tw th ts (paste s t (slotX tw i) (slotY th i))
        (i + 1) (slotX tw i + dx) (slotY th i + dy)
        (by rw [width_paste]; omega) (by rw [height_paste]; omega)
        (fun t2 ht2 => hdims t2 (List.mem_cons_of_mem _ ht2))
        (fun j2 hj2 => slot_disjoint tw th i (i + 1 + j2) dx dy (by omega) hdx hdy)
      simp only [Nat.add_zero]
      rw [hout]
      exact getPix_paste_in s t (slotX tw i) (slotY th i) dx dy
        (by omega) (by omega) (by omega) (by omega)
    | succ k =>
      rw [show i + (k + 1) = i + 1 + k from by omega]
      rw [ih _ (i + 1) k (by simpa using Nat.succ_lt_succ_iff.mp hj) dx dy hdx hdy
        (fun t2 ht2 => hdims t2 (List.mem_cons_of_mem _ ht2))
        (fun k2 hk2 => by
          have h := hbounds (k2 + 1) (by simpa using Nat.succ_lt_succ hk2)
          rw [show i + (k2 + 1) = i + 1 + k2 from by omega] at h
          constructor
          · rw [width_paste]
            exact h.1
          · rw [height_paste]
            exact h.2)]
      rfl

end SheetLemmas

section ClaimC5

/-- **C5.** For a nonempty list of N uniformly sized tiles of size
(tile_w, tile_h), the contact sheet exists and has width exactly
`4*tile_w + 5*12`, height exactly `ceil(N/4)*tile_h + (ceil(N/4)+1)*12`, the
background fill color (20, 20, 26) at every point outside the tile slots (in
particular at the corner), and tile i is pasted unresized with its top-left
corner at `(12 + (i mod 4)*(tile_w+12), 12 + (i div 4)*(tile_h+12))`: each of
its pixels appears there unchanged. -/
theorem C5_contact_sheet_layout (tiles : List Img) (tw th : Nat)
    (hne : tiles ≠ [])
    (hdims : ∀ t ∈ tiles, t.width = tw ∧ t.height = th) :
    ∃ sheet, create_contact_sheet tiles tw th = some sheet ∧
      sheet.width = 4 * tw + 5 * 12 ∧
      sheet.height = ((tiles.length + 3) / 4) * th + ((tiles.length + 3) / 4 + 1) * 12 ∧
      getPix sheet 0 0 = (20, 20, 26) ∧
      (∀ x y, x < sheet.width → y < sheet.height →
        (∀ j, j < tiles.length → ¬ inSlot tw th j x y) →
        getPix sheet x y = (20, 20, 26)) ∧
      (∀ j (hj : j < tiles.length) dx dy, dx < tw → dy < th →
        getPix sheet (12 + j % 4 * (tw + 12) + dx) (12 + j / 4 * (th + 12) + dy) =
          getPix (tiles.get ⟨j, hj⟩) dx dy) := by
  have hNpos : 0 < tiles.length := List.length_pos.mpr hne
  have hHpos : 0 < ((tiles.length + sheetColumns - 1) / sheetColumns) * th +
      (((tiles.length + sheetColumns - 1) / sheetColumns) + 1) * sheetMargin := by
    unfold sheetColumns sheetMargin
    omega
  have hbw : (newRGB (sheetColumns * tw + (sheetColumns + 1) * sheetMargin)
      (((tiles.length + sheetColumns - 1) / sheetColumns) * th +
        (((tiles.length + sheetColumns - 1) / sheetColumns) + 1) * sheetMargin)
      (20, 20, 26)).width =
      sheetColumns * tw + (sheetColumns + 1) * sheetMargin := by
    unfold newRGB
    exact width_mkImg _ _ _ hHpos
  have hbh : (newRGB (sheetColumns * tw + (sheetColumns + 1) * sheetMargin)
      (((tiles.length + sheetColumns - 1) / sheetColumns) * th +
        (((tiles.length + sheetColumns - 1) / sheetColumns) + 1) * sheetMargin)
      (20, 20, 26)).height =
      ((tiles.length + sheetColumns - 1) / sheetColumns) * th +
        (((tiles.length + sheetColumns - 1) / sheetColumns) + 1) * sheetMargin := by
    unfold newRGB
    exact height_mkImg _ _ _
  have hcs : create_contact_sheet tiles tw th =
      some (pasteTiles tw th
        (newRGB (sheetColumns * tw + (sheetColumns + 1) * sheetMargin)
          (((tiles.length + sheetColumns - 1) / sheetColumns) * th +
            (((tiles.length + sheetColumns - 1) / sheetColumns) + 1) * sheetMargin)
          (20, 20, 26))
        0 tiles) := by
    unfold create_contact_sheet
    rw [if_neg (by simp [List.isEmpty_iff, hne])]
  have hbounds : ∀ k, k < tiles.length →
      slotX tw (0 + k) + tw ≤ (newRGB (sheetColumns * tw + (sheetColumns + 1) * sheetMargin)
        (((tiles.length + sheetColumns - 1) / sheetColumns) * th +
          (((tiles.length + sheetColumns - 1) / sheetColumns) + 1) * sheetMargin)
        (20, 20, 26)).width ∧
      slotY th (0 + k) + th ≤ (newRGB (sheetColumns * tw + (sheetColumns + 1) * sheetMargin)
        (((tiles.length + sheetColumns - 1) / sheetColumns) * th +
          (((tiles.length + sheetColumns - 1) / sheetColumns) + 1) * sheetMargin)
        (20, 20, 26)).height := by
    intro k hk
    have hs := slot_in_sheet tw th tiles.length k hk
    rw [Nat.zero_add, hbw, hbh]
    exact hs
  refine ⟨_, hcs, ?_, ?_, ?_, ?_, ?_⟩
  · rw [width_pasteTiles, hbw]
    unfold sheetColumns sheetMargin
    ring
  · rw [height_pasteTiles, hbh]
    have h43 : tiles.length + sheetColumns - 1 = tiles.length + 3 := by
      unfold sheetColumns
      omega
    rw [h43]
    unfold sheetColumns sheetMargin
    ring_nf
  · rw [getPix_pasteTiles_out tw th tiles _ 0 0 0
      (by rw [hbw]; unfold sheetColumns sheetMargin; omega)
      (by rw [hbh]; exact hHpos)
      hdims
      (fun j hj hin => by
        obtain ⟨h1, _⟩ := hin
        unfold slotX sheetMargin at h1
        omega)]
    unfold newRGB
    rw [getPix_mkImg _ _ _ _ _ (by unfold sheetColumns sheetMargin; omega) hHpos]
  · intro x y hx hy hns
    rw [width_pasteTiles, hbw] at hx
    rw [height_pasteTiles, hbh] at hy
    rw [getPix_pasteTiles_out tw th tiles _ 0 x y
      (by rw [hbw]; exact hx) (by rw [hbh]; exact hy) hdims
      (fun j hj => by
        rw [Nat.zero_add]
        exact hns j hj)]
    unfold newRGB
    rw [getPix_mkImg _ _ _ _ _ hx hy]
  · intro j hj dx dy hdx hdy
    have h := getPix_pasteTiles_in tw th tiles
      (newRGB (sheetColumns * tw + (sheetColumns + 1) * sheetMargin)
        (((tiles.length + sheetColumns - 1) / sheetColumns) * th +
          (((tiles.length + sheetColumns - 1) / sheetColumns) + 1) * sheetMargin)
        (20, 20, 26))
      0 j hj dx dy hdx hdy hdims hbounds
    simp only [Nat.zero_add] at h
    simpa [slotX, slotY, sheetMargin, sheetColumns] using h

/-- Witness for C5 on two 1×1 tiles. -/
theorem C5_contact_sheet_layout_witness :
    (([tileA, tileB] : List Img) ≠ [] ∧
      (∀ t ∈ [tileA, tileB], t.width = 1 ∧ t.height = 1)) ∧
    ∃ sheet, create_contact_sheet [tileA, tileB] 1 1 = some sheet ∧
      sheet.width = 4 * 1 + 5 * 12 ∧
      sheet.height = (([tileA, tileB].length + 3) / 4) * 1 +
        (([tileA, tileB].length + 3) / 4 + 1) * 12 ∧
      getPix sheet 0 0 = (20, 20, 26) := by
  obtain ⟨sheet, h1, h2, h3, h4, _⟩ :=
    C5_contact_sheet_layout [tileA, tileB] 1 1 (by decide) (by decide)
  exact ⟨⟨by decide, by decide⟩, sheet, h1, h2, h3, h4⟩

end ClaimC5

end ProcessAssets
